import Mathlib

/-!
Shallow embedding of the vote-aggregation engine `computeLocalsResults`
from `src/server/index.js` of the vibe-check-spots repository, together
with proofs of the specification claims about it.

Modelling conventions:
* a JS place object is `Place`; its `cuisine`/`address` fields may be
  absent (`Option String`); JS truthiness of a string field is
  "present and non-empty".
* a participant's parsed `answers` object is an association list
  `List (String × String)` in insertion order (JS object key order);
  `answers[k] || 'unknown'` is `getVote`.
* JS `Array.prototype.sort` is stable, so it is modelled by
  `List.insertionSort` (a stable sort) with the corresponding `le`
  relation; for a consistent comparator the stable-sorted result is
  unique, so any stable sort is a faithful model.
* JS numbers are modelled by `Nat` for tallies and `Int` for scores.
-/

namespace VibeCheck

structure Place where
  id : String
  name : String
  cuisine : Option String
  address : Option String
  deriving Repr, DecidableEq

structure Participant where
  name : String
  answers : List (String × String)
  deriving Repr, DecidableEq

/-- `answers[k] = v` on a JS object modelled as an assoc list in
key-insertion order: replace the value if the key is present, append the
key otherwise. -/
def updateAssoc (l : List (String × String)) (k v : String) : List (String × String) :=
  match l with
  | [] => [(k, v)]
  | (k', v') :: rest => if k' = k then (k, v) :: rest else (k', v') :: updateAssoc rest k v

/-- `answers[placeId] || 'unknown'`: a missing key or a falsy (empty-string)
value yields `"unknown"`; any other value passes through unchanged. -/
def getVote (answers : List (String × String)) (placeId : String) : String :=
  match answers.lookup placeId with
  | none => "unknown"
  | some v => if v = "" then "unknown" else v

/-- `votes.filter(x => x === v).length` -/
def countVote (votes : List String) (v : String) : Nat :=
  (votes.filter (fun x => x == v)).length

structure ScoredPlace where
  place : Place
  loveCount : Nat
  likeCount : Nat
  mehCount : Nat
  unknownCount : Nat
  nopeCount : Nat
  allLove : Bool
  allPositive : Bool
  noneNope : Bool
  score : Int
  voteBreakdown : String
  boostedScore : Int
  deriving Repr, DecidableEq

/-- The `voteBreakdown` display string built from the five tallies. -/
def voteBreakdownOf (l k m u n : Nat) : String :=
  String.intercalate ", " (([
    if 0 < l then toString l ++ " love" else "",
    if 0 < k then toString k ++ " like" else "",
    if 0 < m then toString m ++ " meh" else "",
    if 0 < u then toString u ++ " haven't tried" else "",
    if 0 < n then toString n ++ " nope" else ""] : List String).filter (fun s => s != ""))

/-- Tallying and scoring of one place from its effective vote list and the
participant count (`placeScores` map body, lines 422-452 of
`src/server/index.js`). The `boostedScore` field is initialised to `score`
and overwritten by `applyBoost` before it is ever read, mirroring the
later mutation. -/
def scoreFromVotes (place : Place) (votes : List String) (n : Nat) : ScoredPlace :=
  let loveCount := countVote votes "love"
  let likeCount := countVote votes "like"
  let mehCount := countVote votes "meh"
  let unknownCount := countVote votes "unknown"
  let nopeCount := countVote votes "nope"
  let score : Int := (loveCount : Int) * 4 + (likeCount : Int) * 2 +
    (mehCount : Int) * 0 + (unknownCount : Int) * 0 - (nopeCount : Int) * 3
  { place := place
    loveCount := loveCount
    likeCount := likeCount
    mehCount := mehCount
    unknownCount := unknownCount
    nopeCount := nopeCount
    allLove := loveCount == n
    allPositive := loveCount + likeCount == n
    noneNope := nopeCount == 0
    score := score
    voteBreakdown := voteBreakdownOf loveCount likeCount mehCount unknownCount nopeCount
    boostedScore := score }

/-- Tallying and scoring of one place over all participants: the effective
vote of each participant is `answers[place.id] || 'unknown'`. -/
def scorePlace (participants : List Participant) (place : Place) : ScoredPlace :=
  scoreFromVotes place (participants.map (fun p => getVote p.answers place.id))
    participants.length

/-- JS truthiness of the `cuisine` field. -/
def cuisineTruthy : Option String → Bool
  | none => false
  | some s => s != ""

/-- `s.split(';')` on the character list: splitting on the separator
character, with `[] ↦ [[]]` so that the empty string splits to `['']`
exactly as in JS. -/
def splitSemiAux : List Char → List (List Char)
  | [] => [[]]
  | c :: rest =>
    match splitSemiAux rest with
    | [] => [[]]
    | h :: t => if c = ';' then [] :: h :: t else (c :: h) :: t

/-- `t.trim().toLowerCase()` on the character list. -/
def trimLowerChars (cs : List Char) : List Char :=
  (((cs.dropWhile Char.isWhitespace).reverse.dropWhile Char.isWhitespace).reverse).map
    Char.toLower

/-- `cuisine.split(';').map(c => c.trim().toLowerCase())` -/
def cuisineTags : Option String → List String
  | none => []
  | some s => (splitSemiAux s.toList).map (fun cs => String.mk (trimLowerChars cs))

/-- The tag list the engine effectively uses for a scored place: the split
cuisine string when the field is truthy, nothing otherwise. -/
def placeTags (p : ScoredPlace) : List String :=
  if cuisineTruthy p.place.cuisine then cuisineTags p.place.cuisine else []

/-- `m[k] = (m[k] || 0) + n` on a JS object modelled as an assoc list in
key-insertion order. -/
def bumpAssoc (l : List (String × Nat)) (k : String) (n : Nat) : List (String × Nat) :=
  match l with
  | [] => [(k, n)]
  | (k', v) :: rest => if k' = k then (k', v + n) :: rest else (k', v) :: bumpAssoc rest k n

/-- `m[k] || 0` -/
def freqLookup (l : List (String × Nat)) (k : String) : Nat :=
  match l.lookup k with
  | none => 0
  | some n => n

/-- One step of the cuisine-frequency loop (lines 456-463): a place with
positive signal and a truthy cuisine field adds its `loveCount + likeCount`
to the table entry of each of its tag occurrences. -/
def cuisineFreqStep (acc : List (String × Nat)) (p : ScoredPlace) : List (String × Nat) :=
  if 0 < p.loveCount + p.likeCount ∧ cuisineTruthy p.place.cuisine then
    (cuisineTags p.place.cuisine).foldl
      (fun a t => bumpAssoc a t (p.loveCount + p.likeCount)) acc
  else acc

/-- The cuisine frequency table (lines 455-463). -/
def cuisineFrequency (scored : List ScoredPlace) : List (String × Nat) :=
  scored.foldl cuisineFreqStep []

/-- What one place contributes to the frequency-table entry of tag `t`:
its positive signal once per occurrence of `t` among its tags. (The
`positiveSignal > 0` guard of the loop is immaterial: a zero signal
contributes zero either way.) -/
def tagContribution (p : ScoredPlace) (t : String) : Nat :=
  if cuisineTruthy p.place.cuisine then
    (p.loveCount + p.likeCount) * (cuisineTags p.place.cuisine).count t
  else 0

/-- Cuisine boosting (lines 466-475): a truthy cuisine field adds the sum
of the frequency-table entries of its tags to `score`; otherwise
`boostedScore = score`. -/
def applyBoost (freq : List (String × Nat)) (p : ScoredPlace) : ScoredPlace :=
  if cuisineTruthy p.place.cuisine then
    { p with boostedScore := p.score +
        (cuisineTags p.place.cuisine).foldl (fun s c => s + (freqLookup freq c : Int)) 0 }
  else
    { p with boostedScore := p.score }

/-- The fully scored-and-boosted candidate list. -/
def scoresOf (places : List Place) (participants : List Participant) : List ScoredPlace :=
  let base := places.map (scorePlace participants)
  base.map (applyBoost (cuisineFrequency base))

/-- Stable-sort relation for `(a, b) => b.boostedScore - a.boostedScore`:
the comparator is nonpositive exactly when `b.boostedScore ≤ a.boostedScore`. -/
def descBoost (a b : ScoredPlace) : Prop :=
  b.boostedScore ≤ a.boostedScore

instance : DecidableRel descBoost :=
  fun a b => inferInstanceAs (Decidable (b.boostedScore ≤ a.boostedScore))

instance : IsTotal ScoredPlace descBoost :=
  ⟨fun a b => le_total b.boostedScore a.boostedScore⟩

instance : IsTrans ScoredPlace descBoost :=
  ⟨fun _ _ _ hab hbc => le_trans hbc hab⟩

/-- Stable-sort relation for
`(a, b) => a.nopeCount - b.nopeCount || b.loveCount - a.loveCount || b.likeCount - a.likeCount`. -/
def fallbackLE (a b : ScoredPlace) : Prop :=
  a.nopeCount < b.nopeCount ∨ (a.nopeCount = b.nopeCount ∧
    (b.loveCount < a.loveCount ∨ (a.loveCount = b.loveCount ∧ b.likeCount ≤ a.likeCount)))

instance : DecidableRel fallbackLE :=
  fun a b => inferInstanceAs (Decidable (a.nopeCount < b.nopeCount ∨ (a.nopeCount = b.nopeCount ∧
    (b.loveCount < a.loveCount ∨ (a.loveCount = b.loveCount ∧ b.likeCount ≤ a.likeCount)))))

/-- Tier 1 (lines 478-480). -/
def sharedFavoritesOf (scored : List ScoredPlace) : List ScoredPlace :=
  List.insertionSort descBoost
    (scored.filter (fun p => p.allPositive && decide (0 < p.loveCount)))

/-- Tier 2 (lines 483-485). -/
def placesToTryOf (scored : List ScoredPlace) : List ScoredPlace :=
  List.insertionSort descBoost (scored.filter (fun p => p.noneNope && !p.allPositive))

/-- The `usedIds` set (lines 489-492), as the list of ids it collects. -/
def usedIdsOf (scored : List ScoredPlace) : List String :=
  (sharedFavoritesOf scored).map (fun p => p.place.id) ++
    (placesToTryOf scored).map (fun p => p.place.id)

/-- Tier 3 (lines 493-496). -/
def bestBetsOf (scored : List ScoredPlace) : List ScoredPlace :=
  (List.insertionSort descBoost (scored.filter (fun p =>
    !(usedIdsOf scored).contains p.place.id && decide (0 < p.score)))).take 5

/-- Tier 4 (lines 499-503). -/
def fallbackPicksOf (scored : List ScoredPlace) : List ScoredPlace :=
  if sharedFavoritesOf scored = [] ∧ placesToTryOf scored = [] ∧ bestBetsOf scored = [] then
    (List.insertionSort fallbackLE scored).take 3
  else []

/-- Lines 566-569. -/
def needsAiFallbackOf (scored : List ScoredPlace) : Bool :=
  decide (sharedFavoritesOf scored = []) && decide (placesToTryOf scored = []) &&
  decide (bestBetsOf scored = []) &&
  (fallbackPicksOf scored).all (fun p => decide (p.loveCount + p.likeCount < p.nopeCount))

/-- `placeMap[pid]` where `placeMap` is built by successive assignment
(lines 415-418), so a duplicated id keeps the last place. -/
def placeMapLookup (places : List Place) (pid : String) : Option Place :=
  places.foldl (fun acc p => if p.id = pid then some p else acc) none

structure Profile where
  name : String
  lovedPlaces : List Place
  likedPlaces : List Place
  wantToTryPlaces : List Place
  topCuisines : List String
  totalLoved : Nat
  totalLiked : Nat
  totalTry : Nat
  deriving Repr, DecidableEq

/-- `Object.entries(answers).filter(([_, x]) => x === v).map(([id]) => placeMap[id]).filter(Boolean)` -/
def entriesWithVerdict (places : List Place) (answers : List (String × String))
    (v : String) : List Place :=
  (answers.filter (fun e => e.2 == v)).filterMap (fun e => placeMapLookup places e.1)

/-- One step of the per-occurrence tag counting loop (lines 521-527). -/
def cuisineCountStep (acc : List (String × Nat)) (p : Place) : List (String × Nat) :=
  if cuisineTruthy p.cuisine then
    (cuisineTags p.cuisine).foldl (fun a t => bumpAssoc a t 1) acc
  else acc

/-- Per-occurrence tag counting over a list of places (lines 520-527). -/
def cuisineCountsOf (ps : List Place) : List (String × Nat) :=
  ps.foldl cuisineCountStep []

/-- Stable-sort relation for assoc-list entries sorted by count
descending, `(([, a], [, b]) => b - a)`. -/
def countDesc (a b : String × Nat) : Prop :=
  b.2 ≤ a.2

instance : DecidableRel countDesc :=
  fun a b => inferInstanceAs (Decidable (b.2 ≤ a.2))

/-- Stable sort of assoc-list entries by count descending. -/
def sortByCountDesc (l : List (String × Nat)) : List (String × Nat) :=
  List.insertionSort countDesc l

/-- One participant's taste profile (lines 506-544). -/
def deriveProfile (places : List Place) (p : Participant) : Profile :=
  let loved := entriesWithVerdict places p.answers "love"
  let liked := entriesWithVerdict places p.answers "like"
  let wantToTry := entriesWithVerdict places p.answers "unknown"
  let top := ((sortByCountDesc (cuisineCountsOf (loved ++ liked))).take 5).map (fun e => e.1)
  { name := p.name
    lovedPlaces := loved
    likedPlaces := liked
    wantToTryPlaces := wantToTry
    topCuisines := top
    totalLoved := loved.length
    totalLiked := liked.length
    totalTry := wantToTry.length }

/-- `topGroupCuisines` (lines 547-550). -/
def topGroupCuisinesOf (scored : List ScoredPlace) : List String :=
  ((sortByCountDesc (cuisineFrequency scored)).take 3).map (fun e => e.1)

/-- The `groupSummary` template cascade (lines 552-563). -/
def groupSummaryOf (shared toTry best fallback : List ScoredPlace)
    (top : List String) : String :=
  if 0 < shared.length then
    "your group has " ++ toString shared.length ++ " shared favorite" ++
    (if 1 < shared.length then "s" else "") ++
    (if 0 < top.length then " and gravitates toward " ++ String.intercalate ", " top else "") ++
    ". " ++ toString toTry.length ++ " more place" ++
    (if toTry.length ≠ 1 then "s" else "") ++ " to explore together."
  else if 0 < toTry.length then
    "no unanimous favorites, but " ++ toString toTry.length ++ " place" ++
    (if toTry.length ≠ 1 then "s" else "") ++ " interest everyone." ++
    (if 0 < top.length then " the group leans toward " ++ String.intercalate ", " top ++ "." else "")
  else if 0 < best.length then
    "different tastes, but we found some best bets based on what the group liked most." ++
    (if 0 < top.length then " popular cuisines: " ++ String.intercalate ", " top ++ "." else "")
  else if 0 < fallback.length then
    "wildly different taste - here are the least controversial picks." ++
    (if 0 < top.length then " the group leans toward " ++ String.intercalate ", " top ++ "." else "")
  else
    "no overlap found. try expanding your search radius or picking a different category."

structure AggregateResult where
  mode : String
  group_summary : String
  shared_favorites : List ScoredPlace
  places_to_try : List ScoredPlace
  best_bets : List ScoredPlace
  fallback_picks : List ScoredPlace
  individual_profiles : List Profile
  cuisine_overlap : List String
  needs_ai_fallback : Bool
  deriving Repr, DecidableEq

/-- The whole engine, `computeLocalsResults` (lines 409-582). -/
def computeLocalsResults (places : List Place) (participants : List Participant) :
    AggregateResult :=
  let scored := scoresOf places participants
  let shared := sharedFavoritesOf scored
  let toTry := placesToTryOf scored
  let best := bestBetsOf scored
  let fallback := fallbackPicksOf scored
  let top := topGroupCuisinesOf scored
  { mode := "locals"
    group_summary := groupSummaryOf shared toTry best fallback top
    shared_favorites := shared.take 10
    places_to_try := toTry.take 10
    best_bets := best
    fallback_picks := fallback
    individual_profiles := participants.map (deriveProfile places)
    cuisine_overlap := top
    needs_ai_fallback := needsAiFallbackOf scored }

/-!
Spec-side tier definitions, written from the words of spec §4.3 ("strict
precedence, first match wins"): each tier is characterised by its own
predicate over a candidate's tallies, with tier 3 excluding candidates by
the tier-1/tier-2 predicates rather than by the engine's id set. They are
compared with the engine-side definitions in the claim-C1 theorem.
-/

/-- Spec §4.3 tier 1: `allPositive && loveCount > 0`, sorted descending by
`boostedScore`. -/
def specSharedFavorites (scored : List ScoredPlace) : List ScoredPlace :=
  List.insertionSort descBoost
    (scored.filter (fun p => p.allPositive && decide (0 < p.loveCount)))

/-- Spec §4.3 tier 2: `noneNope && !allPositive`, sorted descending by
`boostedScore`. -/
def specToTry (scored : List ScoredPlace) : List ScoredPlace :=
  List.insertionSort descBoost (scored.filter (fun p => p.noneNope && !p.allPositive))

/-- Spec §4.3 tier 3: not yet classified (fails both previous predicates),
`score > 0`, sorted descending by `boostedScore`, capped at 5. -/
def specBestBets (scored : List ScoredPlace) : List ScoredPlace :=
  (List.insertionSort descBoost (scored.filter (fun p =>
    !(p.allPositive && decide (0 < p.loveCount)) && !(p.noneNope && !p.allPositive) &&
      decide (0 < p.score)))).take 5

/-- Spec §4.3 tier 4: only when tiers 1-3 are all empty, ALL candidates
sorted by `(nopeCount asc, loveCount desc, likeCount desc)`, top 3. -/
def specFallbackPicks (scored : List ScoredPlace) : List ScoredPlace :=
  if specSharedFavorites scored = [] ∧ specToTry scored = [] ∧ specBestBets scored = [] then
    (List.insertionSort fallbackLE scored).take 3
  else []

/-! ### Concrete data for witness and counterexample theorems -/

def demoPlace : Place :=
  { id := "p1", name := "Trattoria", cuisine := some "italian", address := none }

def demoPlace2 : Place :=
  { id := "p2", name := "Diner", cuisine := none, address := none }

def demoLover : Participant := { name := "ana", answers := [("p1", "love")] }

def demoNoper : Participant := { name := "bo", answers := [("p1", "nope")] }

def demoMalformed : Participant := { name := "mal", answers := [("p1", "banana")] }

/-! ### Helper lemmas -/

@[simp]
theorem scoreFromVotes_place (pl : Place) (votes : List String) (n : Nat) :
    (scoreFromVotes pl votes n).place = pl := rfl

@[simp]
theorem scoreFromVotes_loveCount (pl : Place) (votes : List String) (n : Nat) :
    (scoreFromVotes pl votes n).loveCount = countVote votes "love" := rfl

@[simp]
theorem scoreFromVotes_likeCount (pl : Place) (votes : List String) (n : Nat) :
    (scoreFromVotes pl votes n).likeCount = countVote votes "like" := rfl

@[simp]
theorem scoreFromVotes_mehCount (pl : Place) (votes : List String) (n : Nat) :
    (scoreFromVotes pl votes n).mehCount = countVote votes "meh" := rfl

@[simp]
theorem scoreFromVotes_unknownCount (pl : Place) (votes : List String) (n : Nat) :
    (scoreFromVotes pl votes n).unknownCount = countVote votes "unknown" := rfl

@[simp]
theorem scoreFromVotes_nopeCount (pl : Place) (votes : List String) (n : Nat) :
    (scoreFromVotes pl votes n).nopeCount = countVote votes "nope" := rfl

@[simp]
theorem scoreFromVotes_allLove (pl : Place) (votes : List String) (n : Nat) :
    (scoreFromVotes pl votes n).allLove = (countVote votes "love" == n) := rfl

@[simp]
theorem scoreFromVotes_allPositive (pl : Place) (votes : List String) (n : Nat) :
    (scoreFromVotes pl votes n).allPositive =
      (countVote votes "love" + countVote votes "like" == n) := rfl

@[simp]
theorem scoreFromVotes_noneNope (pl : Place) (votes : List String) (n : Nat) :
    (scoreFromVotes pl votes n).noneNope = (countVote votes "nope" == 0) := rfl

@[simp]
theorem scoreFromVotes_score (pl : Place) (votes : List String) (n : Nat) :
    (scoreFromVotes pl votes n).score =
      (countVote votes "love" : Int) * 4 + (countVote votes "like" : Int) * 2 +
        (countVote votes "meh" : Int) * 0 + (countVote votes "unknown" : Int) * 0 -
        (countVote votes "nope" : Int) * 3 := rfl

theorem scorePlace_def (ps : List Participant) (pl : Place) :
    scorePlace ps pl =
      scoreFromVotes pl (ps.map (fun p => getVote p.answers pl.id)) ps.length := rfl

@[simp]
theorem applyBoost_place (f : List (String × Nat)) (p : ScoredPlace) :
    (applyBoost f p).place = p.place := by
  unfold applyBoost; split <;> rfl

@[simp]
theorem applyBoost_loveCount (f : List (String × Nat)) (p : ScoredPlace) :
    (applyBoost f p).loveCount = p.loveCount := by
  unfold applyBoost; split <;> rfl

@[simp]
theorem applyBoost_likeCount (f : List (String × Nat)) (p : ScoredPlace) :
    (applyBoost f p).likeCount = p.likeCount := by
  unfold applyBoost; split <;> rfl

@[simp]
theorem applyBoost_mehCount (f : List (String × Nat)) (p : ScoredPlace) :
    (applyBoost f p).mehCount = p.mehCount := by
  unfold applyBoost; split <;> rfl

@[simp]
theorem applyBoost_unknownCount (f : List (String × Nat)) (p : ScoredPlace) :
    (applyBoost f p).unknownCount = p.unknownCount := by
  unfold applyBoost; split <;> rfl

@[simp]
theorem applyBoost_nopeCount (f : List (String × Nat)) (p : ScoredPlace) :
    (applyBoost f p).nopeCount = p.nopeCount := by
  unfold applyBoost; split <;> rfl

@[simp]
theorem applyBoost_allLove (f : List (String × Nat)) (p : ScoredPlace) :
    (applyBoost f p).allLove = p.allLove := by
  unfold applyBoost; split <;> rfl

@[simp]
theorem applyBoost_allPositive (f : List (String × Nat)) (p : ScoredPlace) :
    (applyBoost f p).allPositive = p.allPositive := by
  unfold applyBoost; split <;> rfl

@[simp]
theorem applyBoost_noneNope (f : List (String × Nat)) (p : ScoredPlace) :
    (applyBoost f p).noneNope = p.noneNope := by
  unfold applyBoost; split <;> rfl

@[simp]
theorem applyBoost_score (f : List (String × Nat)) (p : ScoredPlace) :
    (applyBoost f p).score = p.score := by
  unfold applyBoost; split <;> rfl

theorem countVote_nil (v : String) : countVote [] v = 0 := rfl

theorem countVote_cons (x v : String) (l : List String) :
    countVote (x :: l) v = (if x = v then 1 else 0) + countVote l v := by
  unfold countVote
  rw [List.filter_cons]
  by_cases h : x = v <;> simp [h, Nat.add_comm]

theorem countVote_append (a b : List String) (v : String) :
    countVote (a ++ b) v = countVote a v + countVote b v := by
  unfold countVote
  rw [List.filter_append, List.length_append]

theorem lookup_updateAssoc_self (l : List (String × String)) (k v : String) :
    (updateAssoc l k v).lookup k = some v := by
  induction l with
  | nil => simp [updateAssoc, List.lookup]
  | cons e rest ih =>
    obtain ⟨k', v'⟩ := e
    unfold updateAssoc
    by_cases h : k' = k
    · simp [h, List.lookup]
    · simp only [if_neg h, List.lookup]
      have : (k == k') = false := by
        exact beq_false_of_ne (fun hk => h hk.symm)
      simp [this, ih]

theorem lookup_updateAssoc_ne (l : List (String × String)) (k v k2 : String)
    (h : k2 ≠ k) : (updateAssoc l k v).lookup k2 = l.lookup k2 := by
  induction l with
  | nil => simp [updateAssoc, List.lookup, beq_false_of_ne h]
  | cons e rest ih =>
    obtain ⟨k', v'⟩ := e
    unfold updateAssoc
    by_cases hk : k' = k
    · subst hk
      simp [List.lookup, beq_false_of_ne h]
    · rw [if_neg hk]
      simp only [List.lookup]
      cases k2 == k' <;> simp [ih]

theorem getVote_updateAssoc_self (l : List (String × String)) (k : String) :
    getVote (updateAssoc l k "love") k = "love" := by
  unfold getVote
  rw [lookup_updateAssoc_self]
  simp

theorem getVote_updateAssoc_ne (l : List (String × String)) (k k2 : String)
    (h : k2 ≠ k) : getVote (updateAssoc l k "love") k2 = getVote l k2 := by
  unfold getVote
  rw [lookup_updateAssoc_ne _ _ _ _ h]

theorem getVote_append_unknown (l : List (String × String)) (k k2 : String)
    (h : l.lookup k = none) :
    getVote (l ++ [(k, "unknown")]) k2 = getVote l k2 := by
  unfold getVote
  by_cases hk : k2 = k
  · subst hk
    rw [h, List.lookup_append, h]
    simp [List.lookup]
  · rw [List.lookup_append]
    have h2 : List.lookup k2 [(k, "unknown")] = none := by
      simp [List.lookup, beq_false_of_ne hk]
    rw [h2]
    cases List.lookup k2 l <;> rfl

theorem freqLookup_cons (k : String) (v : Nat) (rest : List (String × Nat)) (t : String) :
    freqLookup ((k, v) :: rest) t = if t = k then v else freqLookup rest t := by
  unfold freqLookup
  simp only [List.lookup]
  by_cases h : t = k
  · simp [h]
  · simp [beq_false_of_ne h, h]

theorem freqLookup_bumpAssoc (l : List (String × Nat)) (k t : String) (n : Nat) :
    freqLookup (bumpAssoc l k n) t = freqLookup l t + (if t = k then n else 0) := by
  induction l with
  | nil =>
    rw [show bumpAssoc [] k n = [(k, n)] from rfl, freqLookup_cons]
    by_cases h : t = k <;> simp [h, freqLookup]
  | cons e rest ih =>
    obtain ⟨k', v⟩ := e
    rw [show bumpAssoc ((k', v) :: rest) k n =
      if k' = k then (k', v + n) :: rest else (k', v) :: bumpAssoc rest k n from rfl]
    by_cases hk : k' = k
    · subst hk
      rw [if_pos rfl, freqLookup_cons, freqLookup_cons]
      by_cases ht : t = k' <;> simp [ht]
    · rw [if_neg hk, freqLookup_cons, freqLookup_cons]
      by_cases ht : t = k'
      · rw [if_pos ht, if_pos ht]
        have htk : ¬(t = k) := fun hc => hk (ht.symm.trans hc)
        simp [htk]
      · simp [ht, ih]

theorem freqLookup_foldl_bump (ts : List String) (acc : List (String × Nat))
    (n : Nat) (t : String) :
    freqLookup (ts.foldl (fun a x => bumpAssoc a x n) acc) t =
      freqLookup acc t + n * ts.count t := by
  induction ts generalizing acc with
  | nil => simp
  | cons x rest ih =>
    rw [List.foldl_cons, ih, freqLookup_bumpAssoc, List.count_cons]
    by_cases h : t = x
    · subst h
      simp [Nat.mul_add]
      omega
    · simp [h, beq_false_of_ne (fun hx => h hx.symm)]

theorem freqLookup_foldl_freqStep (scored : List ScoredPlace)
    (acc : List (String × Nat)) (t : String) :
    freqLookup (scored.foldl cuisineFreqStep acc) t =
      freqLookup acc t + (scored.map (fun p => tagContribution p t)).sum := by
  induction scored generalizing acc with
  | nil => simp
  | cons p rest ih =>
    rw [List.foldl_cons, ih]
    have hstep : freqLookup (cuisineFreqStep acc p) t =
        freqLookup acc t + tagContribution p t := by
      unfold cuisineFreqStep tagContribution
      by_cases h : 0 < p.loveCount + p.likeCount ∧ cuisineTruthy p.place.cuisine
      · rw [if_pos h, if_pos h.2, freqLookup_foldl_bump]
      · rw [if_neg h]
        rcases not_and_or.mp h with h1 | h2
        · have hz : p.loveCount + p.likeCount = 0 := by omega
          split <;> simp [hz]
        · have : cuisineTruthy p.place.cuisine = false := by
            revert h2; cases cuisineTruthy p.place.cuisine <;> simp
          simp [this]
    rw [hstep, List.map_cons, List.sum_cons]
    omega

theorem freqLookup_cuisineFrequency (scored : List ScoredPlace) (t : String) :
    freqLookup (cuisineFrequency scored) t =
      (scored.map (fun p => tagContribution p t)).sum := by
  unfold cuisineFrequency
  rw [freqLookup_foldl_freqStep]
  simp [freqLookup, List.lookup]

theorem foldl_add_map (l : List String) (f : String → Int) (a : Int) :
    l.foldl (fun s c => s + f c) a = a + (l.map f).sum := by
  induction l generalizing a with
  | nil => simp
  | cons x rest ih =>
    rw [List.foldl_cons, ih, List.map_cons, List.sum_cons]
    ring

theorem applyBoost_boostedScore_truthy (f : List (String × Nat)) (p : ScoredPlace)
    (h : cuisineTruthy p.place.cuisine = true) :
    (applyBoost f p).boostedScore =
      p.score + ((cuisineTags p.place.cuisine).map (fun c => (freqLookup f c : Int))).sum := by
  unfold applyBoost
  rw [if_pos h]
  show p.score + _ = _
  rw [foldl_add_map]
  ring

theorem applyBoost_boostedScore_falsy (f : List (String × Nat)) (p : ScoredPlace)
    (h : cuisineTruthy p.place.cuisine = false) :
    (applyBoost f p).boostedScore = p.score := by
  unfold applyBoost
  rw [if_neg (by simp [h])]

theorem scoresOf_eq (places : List Place) (ps : List Participant) :
    scoresOf places ps = places.map (fun pl =>
      applyBoost (cuisineFrequency (places.map (scorePlace ps))) (scorePlace ps pl)) := by
  unfold scoresOf
  rw [List.map_map]
  rfl

theorem mem_scoresOf {places : List Place} {ps : List Participant} {q : ScoredPlace}
    (h : q ∈ scoresOf places ps) :
    q.place ∈ places ∧
      q = applyBoost (cuisineFrequency (places.map (scorePlace ps)))
            (scorePlace ps q.place) := by
  rw [scoresOf_eq] at h
  obtain ⟨pl, hpl, rfl⟩ := List.mem_map.mp h
  constructor
  · simpa [scorePlace_def] using hpl
  · simp [scorePlace_def]

theorem scoresOf_id_inj {places : List Place} {ps : List Participant}
    (hid : (places.map Place.id).Nodup) {p q : ScoredPlace}
    (hp : p ∈ scoresOf places ps) (hq : q ∈ scoresOf places ps)
    (h : p.place.id = q.place.id) : p = q := by
  obtain ⟨hp1, hp2⟩ := mem_scoresOf hp
  obtain ⟨hq1, hq2⟩ := mem_scoresOf hq
  have hpq : p.place = q.place := List.inj_on_of_nodup_map hid hp1 hq1 h
  rw [hp2, hq2, hpq]

theorem mem_sharedFavoritesOf {scored : List ScoredPlace} {p : ScoredPlace} :
    p ∈ sharedFavoritesOf scored ↔
      p ∈ scored ∧ p.allPositive = true ∧ 0 < p.loveCount := by
  unfold sharedFavoritesOf
  rw [List.mem_insertionSort, List.mem_filter]
  simp

theorem mem_placesToTryOf {scored : List ScoredPlace} {p : ScoredPlace} :
    p ∈ placesToTryOf scored ↔
      p ∈ scored ∧ p.noneNope = true ∧ p.allPositive = false := by
  unfold placesToTryOf
  rw [List.mem_insertionSort, List.mem_filter]
  simp

theorem mem_usedIdsOf {scored : List ScoredPlace} {x : String} :
    x ∈ usedIdsOf scored ↔
      ∃ q ∈ scored, q.place.id = x ∧
        ((q.allPositive = true ∧ 0 < q.loveCount) ∨
          (q.noneNope = true ∧ q.allPositive = false)) := by
  unfold usedIdsOf
  simp only [List.mem_append, List.mem_map, mem_sharedFavoritesOf, mem_placesToTryOf]
  constructor
  · rintro (⟨q, ⟨hq, h1, h2⟩, rfl⟩ | ⟨q, ⟨hq, h1, h2⟩, rfl⟩)
    · exact ⟨q, hq, rfl, Or.inl ⟨h1, h2⟩⟩
    · exact ⟨q, hq, rfl, Or.inr ⟨h1, h2⟩⟩
  · rintro ⟨q, hq, rfl, (h | h)⟩
    · exact Or.inl ⟨q, ⟨hq, h.1, h.2⟩, rfl⟩
    · exact Or.inr ⟨q, ⟨hq, h.1, h.2⟩, rfl⟩

theorem contains_usedIdsOf {places : List Place} {ps : List Participant}
    (hid : (places.map Place.id).Nodup) {p : ScoredPlace}
    (hp : p ∈ scoresOf places ps) :
    (usedIdsOf (scoresOf places ps)).contains p.place.id =
      (p.allPositive && decide (0 < p.loveCount) || p.noneNope && !p.allPositive) := by
  apply Bool.eq_iff_iff.mpr
  rw [List.elem_iff, mem_usedIdsOf]
  constructor
  · rintro ⟨q, hq, hqp, hcase⟩
    have := scoresOf_id_inj hid hq hp hqp
    subst this
    rcases hcase with h | h <;>
      simp [Bool.or_eq_true, Bool.and_eq_true, decide_eq_true_iff, Bool.not_eq_true', h.1, h.2]
  · intro h
    refine ⟨p, hp, rfl, ?_⟩
    simp only [Bool.or_eq_true, Bool.and_eq_true, decide_eq_true_iff,
      Bool.not_eq_true'] at h
    exact h

theorem bestBetsOf_eq_specBestBets {places : List Place} {ps : List Participant}
    (hid : (places.map Place.id).Nodup) :
    bestBetsOf (scoresOf places ps) = specBestBets (scoresOf places ps) := by
  unfold bestBetsOf specBestBets
  rw [List.filter_congr (fun p hp => by
    rw [contains_usedIdsOf hid hp, Bool.not_or])]

theorem fallbackPicksOf_eq_specFallbackPicks {places : List Place} {ps : List Participant}
    (hid : (places.map Place.id).Nodup) :
    fallbackPicksOf (scoresOf places ps) = specFallbackPicks (scoresOf places ps) := by
  unfold fallbackPicksOf specFallbackPicks
  rw [← bestBetsOf_eq_specBestBets hid]
  rfl

theorem countVote_eq_count (votes : List String) (v : String) :
    countVote votes v = votes.count v := by
  simp [countVote, List.count_eq_countP, List.countP_eq_length_filter]

theorem countVote_partition (votes : List String)
    (h : ∀ v ∈ votes, v ∈ (["love", "like", "meh", "unknown", "nope"] : List String)) :
    countVote votes "love" + countVote votes "like" + countVote votes "meh" +
      countVote votes "unknown" + countVote votes "nope" = votes.length := by
  induction votes with
  | nil => rfl
  | cons x rest ih =>
    have hx : x = "love" ∨ x = "like" ∨ x = "meh" ∨ x = "unknown" ∨ x = "nope" := by
      simpa using h x (List.mem_cons_self x rest)
    have ih2 := ih (fun v hv => h v (List.mem_cons_of_mem x hv))
    simp only [countVote_cons, List.length_cons]
    rcases hx with rfl | rfl | rfl | rfl | rfl <;> simp <;> omega

theorem splitSemiAux_ne_nil (cs : List Char) : splitSemiAux cs ≠ [] := by
  cases cs with
  | nil => simp [splitSemiAux]
  | cons c rest =>
    unfold splitSemiAux
    cases splitSemiAux rest with
    | nil => simp
    | cons h t =>
      by_cases hc : c = ';' <;> simp [hc]

theorem placeTags_eq_nil_iff (p : ScoredPlace) :
    placeTags p = [] ↔ cuisineTruthy p.place.cuisine = false := by
  unfold placeTags
  by_cases h : cuisineTruthy p.place.cuisine
  · rw [if_pos h]
    simp only [h]
    constructor
    · intro htags
      exfalso
      cases hcu : p.place.cuisine with
      | none => rw [hcu] at h; simp [cuisineTruthy] at h
      | some s =>
        rw [hcu] at htags
        unfold cuisineTags at htags
        exact splitSemiAux_ne_nil _ (List.map_eq_nil_iff.mp htags)
    · intro hc
      simp at hc
  · rw [if_neg h]
    simp [Bool.not_eq_true] at h
    simp [h]

theorem tagContribution_eq_ite (p : ScoredPlace) (t : String)
    (hnd : (placeTags p).Nodup) :
    tagContribution p t =
      if t ∈ placeTags p then p.loveCount + p.likeCount else 0 := by
  unfold tagContribution
  by_cases h : cuisineTruthy p.place.cuisine
  · rw [if_pos h]
    have hps : placeTags p = cuisineTags p.place.cuisine := by
      unfold placeTags; rw [if_pos h]
    rw [← hps]
    by_cases hmem : t ∈ placeTags p
    · rw [if_pos hmem, List.count_eq_one_of_mem hnd hmem, Nat.mul_one]
    · rw [if_neg hmem, List.count_eq_zero_of_not_mem hmem, Nat.mul_zero]
  · have hfalse : cuisineTruthy p.place.cuisine = false := by
      cases hb : cuisineTruthy p.place.cuisine
      · rfl
      · exact absurd hb h
    rw [if_neg h]
    have : placeTags p = [] := (placeTags_eq_nil_iff p).mpr hfalse
    simp [this]

theorem sum_tagContribution (l : List ScoredPlace) (t : String)
    (hnd : ∀ p ∈ l, (placeTags p).Nodup) :
    (l.map (fun p => tagContribution p t)).sum =
      ((l.filter (fun p => decide (t ∈ placeTags p))).map
        (fun p => p.loveCount + p.likeCount)).sum := by
  induction l with
  | nil => rfl
  | cons p rest ih =>
    have hp := hnd p (List.mem_cons_self p rest)
    have ih2 := ih (fun q hq => hnd q (List.mem_cons_of_mem p hq))
    rw [List.map_cons, List.sum_cons, List.filter_cons, tagContribution_eq_ite p t hp, ih2]
    by_cases hmem : t ∈ placeTags p
    · simp [hmem]
    · simp [hmem]

theorem computeLocals_shared (places : List Place) (ps : List Participant) :
    (computeLocalsResults places ps).shared_favorites =
      (sharedFavoritesOf (scoresOf places ps)).take 10 := rfl

theorem computeLocals_toTry (places : List Place) (ps : List Participant) :
    (computeLocalsResults places ps).places_to_try =
      (placesToTryOf (scoresOf places ps)).take 10 := rfl

theorem computeLocals_best (places : List Place) (ps : List Participant) :
    (computeLocalsResults places ps).best_bets = bestBetsOf (scoresOf places ps) := rfl

theorem computeLocals_fallback (places : List Place) (ps : List Participant) :
    (computeLocalsResults places ps).fallback_picks =
      fallbackPicksOf (scoresOf places ps) := rfl

theorem computeLocals_profiles (places : List Place) (ps : List Participant) :
    (computeLocalsResults places ps).individual_profiles =
      ps.map (deriveProfile places) := rfl

theorem computeLocals_overlap (places : List Place) (ps : List Participant) :
    (computeLocalsResults places ps).cuisine_overlap =
      topGroupCuisinesOf (scoresOf places ps) := rfl

theorem computeLocals_needs (places : List Place) (ps : List Participant) :
    (computeLocalsResults places ps).needs_ai_fallback =
      needsAiFallbackOf (scoresOf places ps) := rfl

theorem computeLocals_summary (places : List Place) (ps : List Participant) :
    (computeLocalsResults places ps).group_summary =
      groupSummaryOf (sharedFavoritesOf (scoresOf places ps))
        (placesToTryOf (scoresOf places ps)) (bestBetsOf (scoresOf places ps))
        (fallbackPicksOf (scoresOf places ps))
        (topGroupCuisinesOf (scoresOf places ps)) := rfl

theorem mem_bestBetsOf {scored : List ScoredPlace} {q : ScoredPlace}
    (h : q ∈ bestBetsOf scored) :
    q ∈ scored ∧ q.place.id ∉ usedIdsOf scored ∧ 0 < q.score := by
  unfold bestBetsOf at h
  have h2 := List.mem_of_mem_take h
  rw [List.mem_insertionSort, List.mem_filter] at h2
  obtain ⟨hmem, hpred⟩ := h2
  rw [Bool.and_eq_true] at hpred
  obtain ⟨h1, h2⟩ := hpred
  refine ⟨hmem, ?_, decide_eq_true_iff.mp h2⟩
  intro hin
  have hc : (usedIdsOf scored).contains q.place.id = true := List.elem_iff.mpr hin
  rw [hc] at h1
  simp at h1

theorem mem_fallbackPicksOf {scored : List ScoredPlace} {q : ScoredPlace}
    (h : q ∈ fallbackPicksOf scored) :
    sharedFavoritesOf scored = [] ∧ placesToTryOf scored = [] ∧
      bestBetsOf scored = [] ∧ q ∈ scored := by
  unfold fallbackPicksOf at h
  split at h
  case isTrue hc =>
    refine ⟨hc.1, hc.2.1, hc.2.2, ?_⟩
    have := List.mem_of_mem_take h
    rwa [List.mem_insertionSort] at this
  case isFalse hc => simp at h

theorem id_mem_usedIds_of_shared {scored : List ScoredPlace} {p : ScoredPlace}
    (h : p ∈ sharedFavoritesOf scored) : p.place.id ∈ usedIdsOf scored :=
  List.mem_append.mpr (Or.inl (List.mem_map_of_mem _ h))

theorem id_mem_usedIds_of_toTry {scored : List ScoredPlace} {p : ScoredPlace}
    (h : p ∈ placesToTryOf scored) : p.place.id ∈ usedIdsOf scored :=
  List.mem_append.mpr (Or.inr (List.mem_map_of_mem _ h))

/-! ### The claims -/

/-- Claim C2: for every candidate and every vote-record list, the engine
tallies `loveCount, likeCount, mehCount, unknownCount, nopeCount` over the
supplied records (effective votes `answers[id] || 'unknown'`) and computes
`score = 4*love + 2*like + 0*meh + 0*unknown - 3*nope`, with
`allLove = (loveCount == participantCount)`,
`allPositive = (loveCount + likeCount == participantCount)` and
`noneNope = (nopeCount == 0)`. -/
theorem claim_c2_scoring (participants : List Participant) (place : Place) :
    (scorePlace participants place).loveCount =
      (participants.map (fun p => getVote p.answers place.id)).count "love" ∧
    (scorePlace participants place).likeCount =
      (participants.map (fun p => getVote p.answers place.id)).count "like" ∧
    (scorePlace participants place).mehCount =
      (participants.map (fun p => getVote p.answers place.id)).count "meh" ∧
    (scorePlace participants place).unknownCount =
      (participants.map (fun p => getVote p.answers place.id)).count "unknown" ∧
    (scorePlace participants place).nopeCount =
      (participants.map (fun p => getVote p.answers place.id)).count "nope" ∧
    (scorePlace participants place).score =
      4 * ((scorePlace participants place).loveCount : Int) +
        2 * ((scorePlace participants place).likeCount : Int) +
        0 * ((scorePlace participants place).mehCount : Int) +
        0 * ((scorePlace participants place).unknownCount : Int) -
        3 * ((scorePlace participants place).nopeCount : Int) ∧
    ((scorePlace participants place).allLove = true ↔
      (scorePlace participants place).loveCount = participants.length) ∧
    ((scorePlace participants place).allPositive = true ↔
      (scorePlace participants place).loveCount + (scorePlace participants place).likeCount =
        participants.length) ∧
    ((scorePlace participants place).noneNope = true ↔
      (scorePlace participants place).nopeCount = 0) := by
  refine ⟨?_, ?_, ?_, ?_, ?_, ?_, ?_, ?_, ?_⟩
  · rw [scorePlace_def, scoreFromVotes_loveCount, countVote_eq_count]
  · rw [scorePlace_def, scoreFromVotes_likeCount, countVote_eq_count]
  · rw [scorePlace_def, scoreFromVotes_mehCount, countVote_eq_count]
  · rw [scorePlace_def, scoreFromVotes_unknownCount, countVote_eq_count]
  · rw [scorePlace_def, scoreFromVotes_nopeCount, countVote_eq_count]
  · simp only [scorePlace_def, scoreFromVotes_score, scoreFromVotes_loveCount,
      scoreFromVotes_likeCount, scoreFromVotes_mehCount, scoreFromVotes_unknownCount,
      scoreFromVotes_nopeCount]
    ring
  · simp [scorePlace_def]
  · simp [scorePlace_def]
  · simp [scorePlace_def]

/-- Claim C2, witness at a concrete input. -/
theorem claim_c2_witness :
    (scorePlace [demoLover, demoNoper] demoPlace).loveCount =
      (([demoLover, demoNoper] : List Participant).map
        (fun p => getVote p.answers demoPlace.id)).count "love" :=
  (claim_c2_scoring [demoLover, demoNoper] demoPlace).1

/-- Claim C8, counterexample: a vote-record entry whose value is the
malformed (truthy, non-verdict) string `"banana"` is counted in none of
the five tallies, so with one participant the tallies sum to `0`, not to
the participant count `1`. -/
theorem claim_c8_cex :
    (scorePlace [demoMalformed] demoPlace).loveCount +
        (scorePlace [demoMalformed] demoPlace).likeCount +
        (scorePlace [demoMalformed] demoPlace).mehCount +
        (scorePlace [demoMalformed] demoPlace).unknownCount +
        (scorePlace [demoMalformed] demoPlace).nopeCount ≠
      ([demoMalformed] : List Participant).length := by decide

/-- Claim C8, amended: the five tallies partition the participant count
provided every participant's effective entry for the candidate is one of
the five verdict strings (a missing or falsy entry is effectively
`'unknown'`, so such records satisfy the proviso); an entry outside the
five verdicts is counted in none of the tallies, and in no case is an
error raised (the scorer is a total function). -/
theorem claim_c8_amended (participants : List Participant) (place : Place)
    (h : ∀ p ∈ participants, getVote p.answers place.id ∈
      (["love", "like", "meh", "unknown", "nope"] : List String)) :
    (scorePlace participants place).loveCount + (scorePlace participants place).likeCount +
        (scorePlace participants place).mehCount +
        (scorePlace participants place).unknownCount +
        (scorePlace participants place).nopeCount = participants.length ∧
    (∀ ans : List (String × String), ans.lookup place.id = none →
      getVote ans place.id = "unknown") := by
  constructor
  · simp only [scorePlace_def, scoreFromVotes_loveCount, scoreFromVotes_likeCount,
      scoreFromVotes_mehCount, scoreFromVotes_unknownCount, scoreFromVotes_nopeCount]
    rw [countVote_partition, List.length_map]
    intro v hv
    obtain ⟨p, hp, rfl⟩ := List.mem_map.mp hv
    exact h p hp
  · intro ans hans
    unfold getVote
    rw [hans]

/-- Claim C8, witness for the amended theorem at a concrete input. -/
theorem claim_c8_witness :
    (scorePlace [demoLover, demoNoper] demoPlace).loveCount +
        (scorePlace [demoLover, demoNoper] demoPlace).likeCount +
        (scorePlace [demoLover, demoNoper] demoPlace).mehCount +
        (scorePlace [demoLover, demoNoper] demoPlace).unknownCount +
        (scorePlace [demoLover, demoNoper] demoPlace).nopeCount =
      ([demoLover, demoNoper] : List Participant).length :=
  (claim_c8_amended [demoLover, demoNoper] demoPlace (by decide)).1

/-- Claim C3: tag-affinity boosting. With each candidate's tag list free
of duplicates (tags are an ordered set in the spec's data model), the
frequency table maps each tag `t` to the sum of `loveCount + likeCount`
over the candidates carrying `t`, every candidate with tags gets
`boostedScore = score + Σ (tag_frequency[t] for t in tags)`, and every
candidate without tags keeps `boostedScore = score`. -/
theorem claim_c3_boosting (places : List Place) (participants : List Participant)
    (hnd : ∀ pl ∈ places, (cuisineTags pl.cuisine).Nodup) :
    (∀ t : String,
      freqLookup (cuisineFrequency (places.map (scorePlace participants))) t =
        (((places.map (scorePlace participants)).filter
            (fun p => decide (t ∈ placeTags p))).map
          (fun p => p.loveCount + p.likeCount)).sum) ∧
    (∀ q ∈ scoresOf places participants,
      (placeTags q ≠ [] →
        q.boostedScore = q.score + ((placeTags q).map (fun t =>
          (freqLookup (cuisineFrequency (places.map (scorePlace participants))) t : Int))).sum) ∧
      (placeTags q = [] → q.boostedScore = q.score)) := by
  constructor
  · intro t
    rw [freqLookup_cuisineFrequency]
    refine sum_tagContribution _ t (fun p hp => ?_)
    obtain ⟨pl, hpl, rfl⟩ := List.mem_map.mp hp
    unfold placeTags
    split
    · exact hnd pl hpl
    · exact List.nodup_nil
  · intro q hq
    obtain ⟨hmem, hq2⟩ := mem_scoresOf hq
    have hplace : (scorePlace participants q.place).place = q.place := by
      rw [scorePlace_def]; rfl
    have hscore : q.score = (scorePlace participants q.place).score := by
      conv_lhs => rw [hq2]
      rw [applyBoost_score]
    constructor
    · intro hne
      have htr : cuisineTruthy q.place.cuisine = true := by
        cases h : cuisineTruthy q.place.cuisine
        · exact absurd ((placeTags_eq_nil_iff q).mpr h) hne
        · rfl
      have hps : placeTags q = cuisineTags q.place.cuisine := by
        unfold placeTags
        rw [if_pos htr]
      have hb := applyBoost_boostedScore_truthy
        (cuisineFrequency (places.map (scorePlace participants)))
        (scorePlace participants q.place) (by rw [hplace]; exact htr)
      rw [hplace] at hb
      conv_lhs => rw [hq2, hb]
      rw [hps, hscore]
    · intro hnil
      have hfa : cuisineTruthy q.place.cuisine = false :=
        (placeTags_eq_nil_iff q).mp hnil
      have hb := applyBoost_boostedScore_falsy
        (cuisineFrequency (places.map (scorePlace participants)))
        (scorePlace participants q.place) (by rw [hplace]; exact hfa)
      conv_lhs => rw [hq2, hb]
      rw [hscore]

/-- Claim C3, witness at a concrete input (one tagged and one untagged
candidate, duplicate-free tag lists). -/
theorem claim_c3_witness :
    freqLookup (cuisineFrequency ([demoPlace, demoPlace2].map (scorePlace [demoLover])))
        "italian" =
      ((([demoPlace, demoPlace2].map (scorePlace [demoLover])).filter
          (fun p => decide ("italian" ∈ placeTags p))).map
        (fun p => p.loveCount + p.likeCount)).sum :=
  (claim_c3_boosting [demoPlace, demoPlace2] [demoLover] (by decide)).1 "italian"

/-- Claim C1: tiered classification follows strict first-match precedence.
With pairwise-distinct candidate ids (the spec's data-model invariant),
each engine tier equals the spec-side tier built from the spec's own
predicates: shared favorites are exactly the candidates with
`allPositive && loveCount > 0` sorted descending by `boostedScore`; to-try
exactly those with `noneNope && !allPositive` likewise sorted; best bets
exactly the not-yet-classified candidates with `score > 0` likewise
sorted and capped at 5; fallback picks are the top 3 of all candidates by
`(nopeCount asc, loveCount desc, likeCount desc)` and only computed when
the first three tiers are all empty. -/
theorem claim_c1_tiers (places : List Place) (participants : List Participant)
    (hid : (places.map Place.id).Nodup) :
    sharedFavoritesOf (scoresOf places participants) =
      specSharedFavorites (scoresOf places participants) ∧
    placesToTryOf (scoresOf places participants) =
      specToTry (scoresOf places participants) ∧
    bestBetsOf (scoresOf places participants) =
      specBestBets (scoresOf places participants) ∧
    fallbackPicksOf (scoresOf places participants) =
      specFallbackPicks (scoresOf places participants) ∧
    (fallbackPicksOf (scoresOf places participants) ≠ [] →
      sharedFavoritesOf (scoresOf places participants) = [] ∧
        placesToTryOf (scoresOf places participants) = [] ∧
        bestBetsOf (scoresOf places participants) = []) := by
  refine ⟨rfl, rfl, bestBetsOf_eq_specBestBets hid,
    fallbackPicksOf_eq_specFallbackPicks hid, ?_⟩
  intro hne
  by_cases h : sharedFavoritesOf (scoresOf places participants) = [] ∧
      placesToTryOf (scoresOf places participants) = [] ∧
      bestBetsOf (scoresOf places participants) = []
  · exact h
  · exfalso
    apply hne
    unfold fallbackPicksOf
    rw [if_neg h]

/-- Claim C1, witness at a concrete input with distinct candidate ids. -/
theorem claim_c1_witness :
    bestBetsOf (scoresOf [demoPlace, demoPlace2] [demoLover, demoNoper]) =
      specBestBets (scoresOf [demoPlace, demoPlace2] [demoLover, demoNoper]) :=
  (claim_c1_tiers [demoPlace, demoPlace2] [demoLover, demoNoper] (by decide)).2.2.1

/-- Claim C5: partition invariant. With pairwise-distinct candidate ids,
the four tiers of the returned `AggregateResult` are pairwise disjoint by
candidate id: no candidate id appears in more than one tier. -/
theorem claim_c5_partition (places : List Place) (participants : List Participant)
    (hid : (places.map Place.id).Nodup) :
    ((computeLocalsResults places participants).shared_favorites.map
        (fun p => p.place.id)).Disjoint
      ((computeLocalsResults places participants).places_to_try.map
        (fun p => p.place.id)) ∧
    ((computeLocalsResults places participants).shared_favorites.map
        (fun p => p.place.id)).Disjoint
      ((computeLocalsResults places participants).best_bets.map
        (fun p => p.place.id)) ∧
    ((computeLocalsResults places participants).shared_favorites.map
        (fun p => p.place.id)).Disjoint
      ((computeLocalsResults places participants).fallback_picks.map
        (fun p => p.place.id)) ∧
    ((computeLocalsResults places participants).places_to_try.map
        (fun p => p.place.id)).Disjoint
      ((computeLocalsResults places participants).best_bets.map
        (fun p => p.place.id)) ∧
    ((computeLocalsResults places participants).places_to_try.map
        (fun p => p.place.id)).Disjoint
      ((computeLocalsResults places participants).fallback_picks.map
        (fun p => p.place.id)) ∧
    ((computeLocalsResults places participants).best_bets.map
        (fun p => p.place.id)).Disjoint
      ((computeLocalsResults places participants).fallback_picks.map
        (fun p => p.place.id)) := by
  refine ⟨?_, ?_, ?_, ?_, ?_, ?_⟩
  · intro x hx1 hx2
    rw [computeLocals_shared] at hx1
    rw [computeLocals_toTry] at hx2
    obtain ⟨p, hp, rfl⟩ := List.mem_map.mp hx1
    obtain ⟨q, hq, hqid⟩ := List.mem_map.mp hx2
    have hp2 := mem_sharedFavoritesOf.mp (List.mem_of_mem_take hp)
    have hq2 := mem_placesToTryOf.mp (List.mem_of_mem_take hq)
    have := scoresOf_id_inj hid hp2.1 hq2.1 hqid.symm
    subst this
    rw [hp2.2.1] at hq2
    exact absurd hq2.2.2 (by simp)
  · intro x hx1 hx2
    rw [computeLocals_shared] at hx1
    rw [computeLocals_best] at hx2
    obtain ⟨p, hp, rfl⟩ := List.mem_map.mp hx1
    obtain ⟨q, hq, hqid⟩ := List.mem_map.mp hx2
    have hp2 := List.mem_of_mem_take hp
    obtain ⟨hqs, hqc, _⟩ := mem_bestBetsOf hq
    have hps := (mem_sharedFavoritesOf.mp hp2).1
    have := scoresOf_id_inj hid hps hqs hqid.symm
    subst this
    exact hqc (id_mem_usedIds_of_shared hp2)
  · intro x hx1 hx2
    rw [computeLocals_shared] at hx1
    rw [computeLocals_fallback] at hx2
    obtain ⟨p, hp, rfl⟩ := List.mem_map.mp hx1
    obtain ⟨q, hq, hqid⟩ := List.mem_map.mp hx2
    obtain ⟨hsf, _, _, _⟩ := mem_fallbackPicksOf hq
    rw [hsf] at hp
    simp at hp
  · intro x hx1 hx2
    rw [computeLocals_toTry] at hx1
    rw [computeLocals_best] at hx2
    obtain ⟨p, hp, rfl⟩ := List.mem_map.mp hx1
    obtain ⟨q, hq, hqid⟩ := List.mem_map.mp hx2
    have hp2 := List.mem_of_mem_take hp
    obtain ⟨hqs, hqc, _⟩ := mem_bestBetsOf hq
    have hps := (mem_placesToTryOf.mp hp2).1
    have := scoresOf_id_inj hid hps hqs hqid.symm
    subst this
    exact hqc (id_mem_usedIds_of_toTry hp2)
  · intro x hx1 hx2
    rw [computeLocals_toTry] at hx1
    rw [computeLocals_fallback] at hx2
    obtain ⟨p, hp, rfl⟩ := List.mem_map.mp hx1
    obtain ⟨q, hq, hqid⟩ := List.mem_map.mp hx2
    obtain ⟨_, htt, _, _⟩ := mem_fallbackPicksOf hq
    rw [htt] at hp
    simp at hp
  · intro x hx1 hx2
    rw [computeLocals_best] at hx1
    rw [computeLocals_fallback] at hx2
    obtain ⟨p, hp, rfl⟩ := List.mem_map.mp hx1
    obtain ⟨q, hq, hqid⟩ := List.mem_map.mp hx2
    obtain ⟨_, _, hbb, _⟩ := mem_fallbackPicksOf hq
    rw [hbb] at hp
    simp at hp

/-- Claim C5, witness at a concrete input with distinct candidate ids. -/
theorem claim_c5_witness :
    ((computeLocalsResults [demoPlace, demoPlace2] [demoLover]).shared_favorites.map
        (fun p => p.place.id)).Disjoint
      ((computeLocalsResults [demoPlace, demoPlace2] [demoLover]).places_to_try.map
        (fun p => p.place.id)) :=
  (claim_c5_partition [demoPlace, demoPlace2] [demoLover] (by decide)).1

theorem take_ten_eq_nil {α : Type} {l : List α} : l.take 10 = [] ↔ l = [] := by
  rw [List.take_eq_nil_iff]
  simp

/-- Claim C4, counterexample: with one candidate loved by the only
participant, the shared-favorites tier is non-empty and the engine's flag
is `false`, yet the claimed disjunction is (vacuously) true because the
fallback tier is empty — so the claimed "if and only if" fails. -/
theorem claim_c4_cex :
    ¬((computeLocalsResults [demoPlace] [demoLover]).needs_ai_fallback = true ↔
      (((computeLocalsResults [demoPlace] [demoLover]).shared_favorites = [] ∧
          (computeLocalsResults [demoPlace] [demoLover]).places_to_try = [] ∧
          (computeLocalsResults [demoPlace] [demoLover]).best_bets = []) ∨
        (computeLocalsResults [demoPlace] [demoLover]).fallback_picks.all
          (fun p => decide (p.loveCount + p.likeCount < p.nopeCount)) = true)) := by decide

/-- Claim C4, amended: `needsExternalFallback` is true if and only if all
three primary tiers are empty AND every member of the fallback-picks tier
has `nopeCount > loveCount + likeCount` (the engine computes a
conjunction, not a disjunction). -/
theorem claim_c4_amended (places : List Place) (participants : List Participant) :
    (computeLocalsResults places participants).needs_ai_fallback = true ↔
      ((computeLocalsResults places participants).shared_favorites = [] ∧
        (computeLocalsResults places participants).places_to_try = [] ∧
        (computeLocalsResults places participants).best_bets = [] ∧
        ∀ p ∈ (computeLocalsResults places participants).fallback_picks,
          p.loveCount + p.likeCount < p.nopeCount) := by
  rw [computeLocals_needs, computeLocals_shared, computeLocals_toTry, computeLocals_best,
    computeLocals_fallback]
  constructor
  · intro h
    simp only [needsAiFallbackOf, Bool.and_eq_true, decide_eq_true_iff,
      List.all_eq_true] at h
    obtain ⟨⟨⟨h1, h2⟩, h3⟩, h4⟩ := h
    exact ⟨by rw [h1]; rfl, by rw [h2]; rfl, h3, h4⟩
  · rintro ⟨h1, h2, h3, h4⟩
    simp only [needsAiFallbackOf, Bool.and_eq_true, decide_eq_true_iff, List.all_eq_true]
    exact ⟨⟨⟨take_ten_eq_nil.mp h1, take_ten_eq_nil.mp h2⟩, h3⟩, h4⟩

/-- Claim C4, witness for the amended equivalence: one candidate that the
only participant nopes makes all tiers except fallback empty and every
fallback member net-negative, so the flag is true. -/
theorem claim_c4_witness :
    (computeLocalsResults [demoPlace] [demoNoper]).needs_ai_fallback = true :=
  (claim_c4_amended [demoPlace] [demoNoper]).mpr (by decide)

theorem scoresOf_no_participants {places : List Place} {q : ScoredPlace}
    (hq : q ∈ scoresOf places []) :
    q.loveCount = 0 ∧ q.likeCount = 0 ∧ q.nopeCount = 0 ∧ q.score = 0 ∧
      q.allPositive = true ∧ q.noneNope = true := by
  obtain ⟨hmem, hq2⟩ := mem_scoresOf hq
  rw [hq2]
  simp [scorePlace_def, countVote]

/-- Claim C6, counterexample: with zero participants but one candidate,
the fallback-picks tier is NOT empty and `needsExternalFallback` is
`false`, contradicting the claim that all four tiers are empty and the
flag is true. -/
theorem claim_c6_cex :
    (computeLocalsResults [demoPlace] []).fallback_picks ≠ [] ∧
      (computeLocalsResults [demoPlace] []).needs_ai_fallback = false := by decide

/-- Claim C6, amended: with zero candidates the aggregation returns all
four tiers empty, `needsExternalFallback = true`, and the no-data summary,
and (being a total function) it never throws. With zero participants but
at least one candidate, however, tiers 1-3 are empty while the
fallback-picks tier is non-empty and `needsExternalFallback` is `false`. -/
theorem claim_c6_amended (places : List Place) (participants : List Participant) :
    (places = [] →
      (computeLocalsResults places participants).shared_favorites = [] ∧
        (computeLocalsResults places participants).places_to_try = [] ∧
        (computeLocalsResults places participants).best_bets = [] ∧
        (computeLocalsResults places participants).fallback_picks = [] ∧
        (computeLocalsResults places participants).needs_ai_fallback = true ∧
        (computeLocalsResults places participants).group_summary =
          "no overlap found. try expanding your search radius or picking a different category.") ∧
    (participants = [] → places ≠ [] →
      (computeLocalsResults places participants).shared_favorites = [] ∧
        (computeLocalsResults places participants).places_to_try = [] ∧
        (computeLocalsResults places participants).best_bets = [] ∧
        (computeLocalsResults places participants).fallback_picks ≠ [] ∧
        (computeLocalsResults places participants).needs_ai_fallback = false) := by
  constructor
  · rintro rfl
    exact ⟨rfl, rfl, rfl, rfl, rfl, rfl⟩
  · rintro rfl hne
    have hscored : scoresOf places [] ≠ [] := by
      rw [scoresOf_eq]
      simpa using hne
    have hsh : sharedFavoritesOf (scoresOf places []) = [] := by
      unfold sharedFavoritesOf
      rw [List.filter_eq_nil_iff.mpr (fun q hq => by
        obtain ⟨h1, _, _, _, _, _⟩ := scoresOf_no_participants hq
        simp [h1])]
      rfl
    have htt : placesToTryOf (scoresOf places []) = [] := by
      unfold placesToTryOf
      rw [List.filter_eq_nil_iff.mpr (fun q hq => by
        obtain ⟨_, _, _, _, h5, _⟩ := scoresOf_no_participants hq
        simp [h5])]
      rfl
    have hbb : bestBetsOf (scoresOf places []) = [] := by
      unfold bestBetsOf
      rw [List.filter_eq_nil_iff.mpr (fun q hq => by
        obtain ⟨_, _, _, h4, _, _⟩ := scoresOf_no_participants hq
        simp [h4])]
      rfl
    have hfb : fallbackPicksOf (scoresOf places []) ≠ [] := by
      unfold fallbackPicksOf
      rw [if_pos ⟨hsh, htt, hbb⟩]
      intro hnil
      rw [List.take_eq_nil_iff] at hnil
      rcases hnil with h3 | hs
      · exact absurd h3 (by decide)
      · apply hscored
        have := List.length_insertionSort fallbackLE (scoresOf places [])
        rw [hs] at this
        exact List.length_eq_zero.mp this.symm
    have hna : needsAiFallbackOf (scoresOf places []) = false := by
      obtain ⟨q0, hq0⟩ := List.exists_mem_of_ne_nil _ hfb
      obtain ⟨_, _, _, hq0s⟩ := mem_fallbackPicksOf hq0
      obtain ⟨h1, h2, h3, _, _, _⟩ := scoresOf_no_participants hq0s
      unfold needsAiFallbackOf
      have hall : (fallbackPicksOf (scoresOf places [])).all
          (fun p => decide (p.loveCount + p.likeCount < p.nopeCount)) = false := by
        rw [List.all_eq_false]
        exact ⟨q0, hq0, by simp [h1, h2, h3]⟩
      rw [hall, Bool.and_false]
    refine ⟨?_, ?_, ?_, ?_, ?_⟩
    · rw [computeLocals_shared, hsh]; rfl
    · rw [computeLocals_toTry, htt]; rfl
    · rw [computeLocals_best]; exact hbb
    · rw [computeLocals_fallback]; exact hfb
    · rw [computeLocals_needs]; exact hna

/-- Claim C6, witness: the zero-candidates branch of the amended theorem
at a concrete input. -/
theorem claim_c6_witness :
    (computeLocalsResults [] [demoLover]).needs_ai_fallback = true :=
  ((claim_c6_amended [] [demoLover]).1 rfl).2.2.2.2.1

theorem scorePlace_unknown_append (pre post : List Participant) (nm : String)
    (ans : List (String × String)) (cid : String) (h1 : ans.lookup cid = none)
    (pl : Place) :
    scorePlace (pre ++ ⟨nm, ans ++ [(cid, "unknown")]⟩ :: post) pl =
      scorePlace (pre ++ ⟨nm, ans⟩ :: post) pl := by
  rw [scorePlace_def, scorePlace_def]
  have hmid : getVote (ans ++ [(cid, "unknown")]) pl.id = getVote ans pl.id :=
    getVote_append_unknown ans cid pl.id h1
  congr 1
  · simp only [List.map_append, List.map_cons]
    rw [hmid]
  · simp

theorem entriesWithVerdict_append_ne (places : List Place)
    (ans : List (String × String)) (k val v : String) (hne : (val == v) = false) :
    entriesWithVerdict places (ans ++ [(k, val)]) v =
      entriesWithVerdict places ans v := by
  unfold entriesWithVerdict
  rw [List.filter_append]
  simp [List.filter, hne]

theorem entriesWithVerdict_append_eq (places : List Place)
    (ans : List (String × String)) (k v : String) (c : Place)
    (h2 : placeMapLookup places k = some c) :
    entriesWithVerdict places (ans ++ [(k, v)]) v =
      entriesWithVerdict places ans v ++ [c] := by
  unfold entriesWithVerdict
  rw [List.filter_append, List.filterMap_append]
  congr 1
  simp [List.filter, List.filterMap, h2]

theorem deriveProfile_unknown_append (places : List Place) (nm : String)
    (ans : List (String × String)) (c : Place)
    (h2 : placeMapLookup places c.id = some c) :
    deriveProfile places ⟨nm, ans ++ [(c.id, "unknown")]⟩ =
      { deriveProfile places ⟨nm, ans⟩ with
          wantToTryPlaces := (deriveProfile places ⟨nm, ans⟩).wantToTryPlaces ++ [c],
          totalTry := (deriveProfile places ⟨nm, ans⟩).totalTry + 1 } := by
  unfold deriveProfile
  rw [show (Participant.mk nm (ans ++ [(c.id, "unknown")])).answers =
      ans ++ [(c.id, "unknown")] from rfl]
  rw [entriesWithVerdict_append_ne places ans c.id "unknown" "love" (by decide),
    entriesWithVerdict_append_ne places ans c.id "unknown" "like" (by decide),
    entriesWithVerdict_append_eq places ans c.id "unknown" c h2]
  simp

/-- Claim C7, counterexample: replacing a missing entry by an explicit
`'unknown'` entry changes the returned `AggregateResult`: the modified
participant's `wantToTryPlaces` gains the candidate, so the results are
not identical. -/
theorem claim_c7_cex :
    computeLocalsResults [demoPlace] [{ name := "u", answers := [] }] ≠
      computeLocalsResults [demoPlace]
        [{ name := "u", answers := [("p1", "unknown")] }] := by decide

/-- Claim C7, amended: replacing a vote record that has no entry for a
given candidate with one whose entry for that candidate is explicitly
`'unknown'` (all else equal) leaves the group-level output identical —
same summary, all four tiers, cuisine overlap and fallback flag — and
leaves every other participant's profile identical; only the modified
participant's profile changes, its `wantToTryPlaces` gaining exactly that
candidate (and `totalTry` growing by one). -/
theorem claim_c7_amended (places : List Place) (pre post : List Participant)
    (nm : String) (ans : List (String × String)) (c : Place)
    (h1 : ans.lookup c.id = none)
    (h2 : placeMapLookup places c.id = some c) :
    computeLocalsResults places (pre ++ ⟨nm, ans ++ [(c.id, "unknown")]⟩ :: post) =
      { computeLocalsResults places (pre ++ ⟨nm, ans⟩ :: post) with
          individual_profiles :=
            pre.map (deriveProfile places) ++
              ({ deriveProfile places ⟨nm, ans⟩ with
                  wantToTryPlaces :=
                    (deriveProfile places ⟨nm, ans⟩).wantToTryPlaces ++ [c],
                  totalTry := (deriveProfile places ⟨nm, ans⟩).totalTry + 1 }) ::
                post.map (deriveProfile places) } := by
  have hfun : scorePlace (pre ++ ⟨nm, ans ++ [(c.id, "unknown")]⟩ :: post) =
      scorePlace (pre ++ ⟨nm, ans⟩ :: post) :=
    funext fun pl => scorePlace_unknown_append pre post nm ans c.id h1 pl
  have hS : scoresOf places (pre ++ ⟨nm, ans ++ [(c.id, "unknown")]⟩ :: post) =
      scoresOf places (pre ++ ⟨nm, ans⟩ :: post) := by
    rw [scoresOf_eq, scoresOf_eq, hfun]
  have hprof : (pre ++ (⟨nm, ans ++ [(c.id, "unknown")]⟩ : Participant) :: post).map
        (deriveProfile places) =
      pre.map (deriveProfile places) ++
        ({ deriveProfile places ⟨nm, ans⟩ with
            wantToTryPlaces := (deriveProfile places ⟨nm, ans⟩).wantToTryPlaces ++ [c],
            totalTry := (deriveProfile places ⟨nm, ans⟩).totalTry + 1 }) ::
          post.map (deriveProfile places) := by
    rw [List.map_append, List.map_cons, deriveProfile_unknown_append places nm ans c h2]
  unfold computeLocalsResults
  rw [hS, hprof]

/-- Claim C7, witness: the amended theorem applied at a concrete input;
the group summary is unchanged by the replacement. -/
theorem claim_c7_witness :
    (computeLocalsResults [demoPlace]
        [{ name := "u", answers := [("p1", "unknown")] }]).group_summary =
      (computeLocalsResults [demoPlace] [{ name := "u", answers := [] }]).group_summary := by
  have h := claim_c7_amended [demoPlace] [] [] "u" [] demoPlace rfl (by decide)
  have h2 := congrArg AggregateResult.group_summary h
  exact h2

theorem scorePlace_place (ps : List Participant) (pl : Place) :
    (scorePlace ps pl).place = pl := rfl

theorem scorePlace_update_ne (pre post : List Participant) (nm : String)
    (ans : List (String × String)) (cid : String) (d : Place) (hne : d.id ≠ cid) :
    scorePlace (pre ++ ⟨nm, updateAssoc ans cid "love"⟩ :: post) d =
      scorePlace (pre ++ ⟨nm, ans⟩ :: post) d := by
  rw [scorePlace_def, scorePlace_def]
  have hmid : getVote (updateAssoc ans cid "love") d.id = getVote ans d.id :=
    getVote_updateAssoc_ne ans cid d.id hne
  congr 1
  · simp only [List.map_append, List.map_cons]
    rw [hmid]
  · simp

theorem countVote_map_mid (pre post : List Participant) (nm : String)
    (a : List (String × String)) (pid x : String) :
    countVote ((pre ++ ⟨nm, a⟩ :: post).map (fun p => getVote p.answers pid)) x =
      countVote (pre.map (fun p => getVote p.answers pid)) x +
        (if getVote a pid = x then 1 else 0) +
        countVote (post.map (fun p => getVote p.answers pid)) x := by
  simp only [List.map_append, List.map_cons]
  rw [countVote_append, countVote_cons]
  omega

/-- Claim C9: scoring monotonicity. Changing one participant's verdict on
candidate `c` to `love` (from anything that was not already an effective
`love`) raises `c`'s `loveCount` by exactly one, leaves every candidate
with a different id with an unchanged score record, and never decreases
`c`'s `score` or its `boostedScore` (the latter computed through the
cuisine-frequency table of the full candidate list). -/
theorem claim_c9_monotonicity (places : List Place) (pre post : List Participant)
    (nm : String) (ans : List (String × String)) (c : Place)
    (hv : getVote ans c.id ≠ "love") :
    (scorePlace (pre ++ ⟨nm, updateAssoc ans c.id "love"⟩ :: post) c).loveCount =
      (scorePlace (pre ++ ⟨nm, ans⟩ :: post) c).loveCount + 1 ∧
    (∀ d : Place, d.id ≠ c.id →
      scorePlace (pre ++ ⟨nm, updateAssoc ans c.id "love"⟩ :: post) d =
        scorePlace (pre ++ ⟨nm, ans⟩ :: post) d) ∧
    (scorePlace (pre ++ ⟨nm, ans⟩ :: post) c).score ≤
      (scorePlace (pre ++ ⟨nm, updateAssoc ans c.id "love"⟩ :: post) c).score ∧
    (applyBoost
        (cuisineFrequency (places.map (scorePlace (pre ++ ⟨nm, ans⟩ :: post))))
        (scorePlace (pre ++ ⟨nm, ans⟩ :: post) c)).boostedScore ≤
      (applyBoost
          (cuisineFrequency (places.map
            (scorePlace (pre ++ ⟨nm, updateAssoc ans c.id "love"⟩ :: post))))
          (scorePlace (pre ++ ⟨nm, updateAssoc ans c.id "love"⟩ :: post) c)).boostedScore := by
  have hlove :
      (scorePlace (pre ++ ⟨nm, updateAssoc ans c.id "love"⟩ :: post) c).loveCount =
        (scorePlace (pre ++ ⟨nm, ans⟩ :: post) c).loveCount + 1 := by
    simp only [scorePlace_def, scoreFromVotes_loveCount, countVote_map_mid,
      getVote_updateAssoc_self]
    rw [if_neg hv]
    simp only [if_true]
    omega
  have hsc :
      (scorePlace (pre ++ ⟨nm, ans⟩ :: post) c).score ≤
        (scorePlace (pre ++ ⟨nm, updateAssoc ans c.id "love"⟩ :: post) c).score := by
    simp only [scorePlace_def, scoreFromVotes_score, countVote_map_mid,
      getVote_updateAssoc_self]
    simp only [if_neg hv]
    simp only [show ("love" = "love") = True by simp, show ("love" = "like") = False by simp,
      show ("love" = "meh") = False by simp, show ("love" = "unknown") = False by simp,
      show ("love" = "nope") = False by simp, if_true, if_false]
    split_ifs <;> push_cast <;> omega
  have hpos : ∀ pl : Place, pl.id = c.id →
      (scorePlace (pre ++ ⟨nm, ans⟩ :: post) pl).loveCount +
          (scorePlace (pre ++ ⟨nm, ans⟩ :: post) pl).likeCount ≤
        (scorePlace (pre ++ ⟨nm, updateAssoc ans c.id "love"⟩ :: post) pl).loveCount +
          (scorePlace (pre ++ ⟨nm, updateAssoc ans c.id "love"⟩ :: post) pl).likeCount := by
    intro pl hd
    simp only [scorePlace_def, scoreFromVotes_loveCount, scoreFromVotes_likeCount,
      countVote_map_mid, hd, getVote_updateAssoc_self]
    simp only [if_neg hv]
    simp only [show ("love" = "love") = True by simp, show ("love" = "like") = False by simp,
      if_true, if_false]
    split_ifs <;> omega
  have hfreq : ∀ t : String,
      freqLookup (cuisineFrequency (places.map
          (scorePlace (pre ++ ⟨nm, ans⟩ :: post)))) t ≤
        freqLookup (cuisineFrequency (places.map
          (scorePlace (pre ++ ⟨nm, updateAssoc ans c.id "love"⟩ :: post)))) t := by
    intro t
    rw [freqLookup_cuisineFrequency, freqLookup_cuisineFrequency, List.map_map,
      List.map_map]
    apply List.sum_le_sum
    intro pl hpl
    simp only [Function.comp]
    by_cases hd : pl.id = c.id
    · unfold tagContribution
      rw [scorePlace_place, scorePlace_place]
      by_cases htr : cuisineTruthy pl.cuisine = true
      · rw [if_pos htr, if_pos htr]
        exact Nat.mul_le_mul_right _ (hpos pl hd)
      · rw [if_neg htr, if_neg htr]
    · rw [scorePlace_update_ne pre post nm ans c.id pl hd]
  have hboost :
      (applyBoost
          (cuisineFrequency (places.map (scorePlace (pre ++ ⟨nm, ans⟩ :: post))))
          (scorePlace (pre ++ ⟨nm, ans⟩ :: post) c)).boostedScore ≤
        (applyBoost
            (cuisineFrequency (places.map
              (scorePlace (pre ++ ⟨nm, updateAssoc ans c.id "love"⟩ :: post))))
            (scorePlace (pre ++ ⟨nm, updateAssoc ans c.id "love"⟩ :: post) c)).boostedScore := by
    by_cases htr : cuisineTruthy c.cuisine = true
    · rw [applyBoost_boostedScore_truthy _ _ (by rw [scorePlace_place]; exact htr),
        applyBoost_boostedScore_truthy _ _ (by rw [scorePlace_place]; exact htr)]
      rw [scorePlace_place, scorePlace_place]
      apply Int.add_le_add hsc
      apply List.sum_le_sum
      intro t ht
      exact Int.ofNat_le.mpr (hfreq t)
    · have hfa : cuisineTruthy c.cuisine = false := by
        cases hb : cuisineTruthy c.cuisine
        · rfl
        · exact absurd hb htr
      rw [applyBoost_boostedScore_falsy _ _ (by rw [scorePlace_place]; exact hfa),
        applyBoost_boostedScore_falsy _ _ (by rw [scorePlace_place]; exact hfa)]
      exact hsc
  exact ⟨hlove, fun d hd => scorePlace_update_ne pre post nm ans c.id d hd, hsc, hboost⟩

/-- Claim C9, witness: at a concrete input where the participant's prior
verdict on the candidate was `meh`, switching it to `love` adds one to the
candidate's `loveCount`. -/
theorem claim_c9_witness :
    (scorePlace [⟨"ana", updateAssoc [("p1", "meh")] "p1" "love"⟩] demoPlace).loveCount =
      (scorePlace [⟨"ana", [("p1", "meh")]⟩] demoPlace).loveCount + 1 :=
  (claim_c9_monotonicity [demoPlace] [] [] "ana" [("p1", "meh")] demoPlace (by decide)).1

theorem take_pairwise_le {l : List ScoredPlace} (hs : l.Pairwise descBoost) (n : Nat)
    {p q : ScoredPlace} (hp : p ∈ l.take n) (hq : q ∈ l) (hq2 : q ∉ l.take n) :
    q.boostedScore ≤ p.boostedScore := by
  have hsplit := List.take_append_drop n l
  have hs2 : (l.take n ++ l.drop n).Pairwise descBoost := by rw [hsplit]; exact hs
  rw [List.pairwise_append] at hs2
  have hq3 : q ∈ l.take n ++ l.drop n := by rw [hsplit]; exact hq
  rcases List.mem_append.mp hq3 with h | h
  · exact absurd h hq2
  · exact hs2.2.2 p hp q h

/-- Claim C10: output truncation. The returned `shared_favorites` and
`places_to_try` lists are the first 10 entries of the corresponding
descending-by-`boostedScore` tiers, hence contain at most 10 entries, and
any tier member left out has a `boostedScore` no larger than that of any
returned member. -/
theorem claim_c10_truncation (places : List Place) (participants : List Participant) :
    (computeLocalsResults places participants).shared_favorites.length ≤ 10 ∧
    (computeLocalsResults places participants).places_to_try.length ≤ 10 ∧
    (computeLocalsResults places participants).shared_favorites =
      (sharedFavoritesOf (scoresOf places participants)).take 10 ∧
    (computeLocalsResults places participants).places_to_try =
      (placesToTryOf (scoresOf places participants)).take 10 ∧
    (∀ p ∈ (computeLocalsResults places participants).shared_favorites,
      ∀ q ∈ sharedFavoritesOf (scoresOf places participants),
        q ∉ (computeLocalsResults places participants).shared_favorites →
          q.boostedScore ≤ p.boostedScore) ∧
    (∀ p ∈ (computeLocalsResults places participants).places_to_try,
      ∀ q ∈ placesToTryOf (scoresOf places participants),
        q ∉ (computeLocalsResults places participants).places_to_try →
          q.boostedScore ≤ p.boostedScore) := by
  have hs1 : (sharedFavoritesOf (scoresOf places participants)).Pairwise descBoost := by
    unfold sharedFavoritesOf
    exact List.sorted_insertionSort descBoost _
  have hs2 : (placesToTryOf (scoresOf places participants)).Pairwise descBoost := by
    unfold placesToTryOf
    exact List.sorted_insertionSort descBoost _
  refine ⟨?_, ?_, rfl, rfl, ?_, ?_⟩
  · rw [computeLocals_shared]
    exact List.length_take_le 10 _
  · rw [computeLocals_toTry]
    exact List.length_take_le 10 _
  · intro p hp q hq hq2
    rw [computeLocals_shared] at hp hq2
    exact take_pairwise_le hs1 10 hp hq hq2
  · intro p hp q hq hq2
    rw [computeLocals_toTry] at hp hq2
    exact take_pairwise_le hs2 10 hp hq hq2

/-- Claim C10, witness at a concrete input. -/
theorem claim_c10_witness :
    (computeLocalsResults [demoPlace, demoPlace2] [demoLover]).shared_favorites.length ≤
      10 :=
  (claim_c10_truncation [demoPlace, demoPlace2] [demoLover]).1

end VibeCheck
